import Mathlib

/-!
Verification of the stremio episode-randomizer core against its source.

The JavaScript source is shallowly embedded: JS numbers are modelled as an
inductive `JSNum` (NaN, the two infinities, or an exact rational — IEEE-754
rounding is not modelled), JS values reaching the functions under study as
`JSVal`, and the asynchronous collaborators (metadata provider, settings
store, watch history, the random source) as explicit parameters of the
selection functions.
-/

/-- A JavaScript number: NaN, +Infinity, -Infinity, or a finite value
(modelled as an exact rational; IEEE-754 rounding is not modelled). -/
inductive JSNum where
  | nan : JSNum
  | inf : JSNum
  | neginf : JSNum
  | fin : ℚ → JSNum
deriving DecidableEq

/-- A JavaScript value of the shapes that reach the embedded functions:
undefined, null, a boolean, a number, or a string. -/
inductive JSVal where
  | undef : JSVal
  | jnull : JSVal
  | bool : Bool → JSVal
  | num : JSNum → JSVal
  | str : String → JSVal
deriving DecidableEq

/-- Model of the JS builtin Number.isFinite. -/
def jsIsFinite : JSNum → Bool
  | JSNum.fin _ => true
  | _ => false

/-- Model of the JS builtin Number.isNaN. -/
def jsIsNaN : JSNum → Bool
  | JSNum.nan => true
  | _ => false

/-- Model of the JS comparison n > 0 on numbers (NaN > 0 is false). -/
def jsGtZero : JSNum → Bool
  | JSNum.nan => false
  | JSNum.inf => true
  | JSNum.neginf => false
  | JSNum.fin q => decide (0 < q)

/-- Model of JS truthiness: undefined, null, false, 0, NaN and "" are falsy. -/
def jsTruthy : JSVal → Bool
  | JSVal.undef => false
  | JSVal.jnull => false
  | JSVal.bool b => b
  | JSVal.num JSNum.nan => false
  | JSVal.num (JSNum.fin q) => decide (q ≠ 0)
  | JSVal.num _ => true
  | JSVal.str s => decide (s ≠ "")

/-- Model of the JS expression a || b (returns a when truthy, else b). -/
def jsOr (a b : JSVal) : JSVal :=
  if jsTruthy a then a else b

/-- ASCII decimal digit test. -/
def isDigitCh (c : Char) : Bool :=
  decide ('0' ≤ c) && decide (c ≤ '9')

/-- Value of a decimal digit character. -/
def digVal (c : Char) : ℕ :=
  c.toNat - '0'.toNat

/-- Natural number denoted by a list of decimal digit characters. -/
def digitsToNat (l : List Char) : ℕ :=
  l.foldl (fun a c => 10 * a + digVal c) 0

/-- Whitespace characters recognised when trimming for Number() conversion. -/
def isWsChar (c : Char) : Bool :=
  c = ' ' || c = '\t' || c = '\n' || c = '\r' || c = '\x0b' || c = '\x0c'

/-- Trim whitespace from both ends of a character list. -/
def trimWs (l : List Char) : List Char :=
  ((l.dropWhile isWsChar).reverse.dropWhile isWsChar).reverse

/-- Split a character list on every occurrence of a separator, keeping empty
segments, exactly as the JS String.prototype.split with a one-character
separator does (the empty list yields one empty segment). -/
def splitOnChar (sep : Char) : List Char → List (List Char)
  | [] => [[]]
  | c :: rest =>
    let r := splitOnChar sep rest
    if c = sep then [] :: r
    else
      match r with
      | [] => [[c]]
      | h :: t => (c :: h) :: t

/-- Model of the JS call id.startsWith applied with the fixed prefix "tt". -/
def startsTT (s : String) : Bool :=
  match s.data with
  | 't' :: 't' :: _ => true
  | _ => false

/-- Model of the JS call id.includes applied with the one-character
separator used by the codec. -/
def containsColon (s : String) : Bool :=
  s.data.contains ':'

/-- Hexadecimal digit value, if any. -/
def hexVal (c : Char) : Option ℕ :=
  if isDigitCh c then some (digVal c)
  else if decide ('a' ≤ c) && decide (c ≤ 'f') then some (c.toNat - 'a'.toNat + 10)
  else if decide ('A' ≤ c) && decide (c ≤ 'F') then some (c.toNat - 'A'.toNat + 10)
  else none

/-- Digit test for a radix of at most 16. -/
def isRadixDigit (base : ℕ) (c : Char) : Bool :=
  match hexVal c with
  | some v => decide (v < base)
  | none => false

/-- Value of an unsigned radix literal body, when every character is a digit
of the radix and at least one digit is present. -/
def radixParseNat (base : ℕ) (ds : List Char) : Option ℕ :=
  if ds.isEmpty then none
  else if ds.all (isRadixDigit base) then
    some (ds.foldl (fun a c => base * a + (hexVal c).getD 0) 0)
  else none

/-- Parse the exponent suffix of a decimal literal; the empty suffix denotes
exponent 0, anything else must be e or E, an optional sign and digits. -/
def parseExpPart : List Char → Option ℤ
  | [] => some 0
  | c :: rest =>
    if c = 'e' || c = 'E' then
      match rest with
      | '+' :: ds =>
        if !ds.isEmpty && ds.all isDigitCh then some (digitsToNat ds : ℤ) else none
      | '-' :: ds =>
        if !ds.isEmpty && ds.all isDigitCh then some (-(digitsToNat ds : ℤ)) else none
      | ds =>
        if !ds.isEmpty && ds.all isDigitCh then some (digitsToNat ds : ℤ) else none
    else none

/-- The rational m * 10 ^ e (mantissa and decimal exponent). -/
def qTimesPow10 (m : ℕ) (e : ℤ) : ℚ :=
  if 0 ≤ e then mkRat (m * 10 ^ e.toNat : ℕ) 1 else mkRat m (10 ^ (-e).toNat)

/-- Parse an unsigned decimal literal (digits, optional fraction, optional
exponent) to an exact rational. -/
def decParse (l : List Char) : Option ℚ :=
  let ip := l.takeWhile isDigitCh
  let rest := l.dropWhile isDigitCh
  match rest with
  | '.' :: rest2 =>
    let fp := rest2.takeWhile isDigitCh
    let rest3 := rest2.dropWhile isDigitCh
    if ip.isEmpty && fp.isEmpty then none
    else
      match parseExpPart rest3 with
      | some e => some (qTimesPow10 (digitsToNat (ip ++ fp)) (e - fp.length))
      | none => none
  | _ =>
    if ip.isEmpty then none
    else
      match parseExpPart rest with
      | some e => some (qTimesPow10 (digitsToNat ip) e)
      | none => none

/-- Unsigned part of a string numeric literal: Infinity or a decimal
literal, with the sign applied afterwards. -/
def unsignedDec (t : List Char) (neg : Bool) : JSNum :=
  if t = ['I', 'n', 'f', 'i', 'n', 'i', 't', 'y'] then
    if neg then JSNum.neginf else JSNum.inf
  else
    match decParse t with
    | some q => JSNum.fin (if neg then -q else q)
    | none => JSNum.nan

/-- Signed decimal-or-Infinity part of a string numeric literal. -/
def signedParse (t : List Char) : JSNum :=
  match t with
  | '+' :: rest => unsignedDec rest false
  | '-' :: rest => unsignedDec rest true
  | _ => unsignedDec t false

/-- Model of the JS builtin Number() conversion on a string (the ES
StringNumericLiteral grammar): whitespace is trimmed, the empty string is 0,
a sign may precede Infinity or a decimal literal with optional fraction and
exponent, and unsigned 0x/0o/0b radix literals are accepted; everything else
is NaN.  Finite values are exact rationals (rounding not modelled). -/
def jsNumberChars (l : List Char) : JSNum :=
  let t := trimWs l
  if t.isEmpty then JSNum.fin 0
  else
    match t with
    | '0' :: x :: rest =>
      if x = 'x' || x = 'X' then
        match radixParseNat 16 rest with
        | some n => JSNum.fin (mkRat n 1)
        | none => JSNum.nan
      else if x = 'o' || x = 'O' then
        match radixParseNat 8 rest with
        | some n => JSNum.fin (mkRat n 1)
        | none => JSNum.nan
      else if x = 'b' || x = 'B' then
        match radixParseNat 2 rest with
        | some n => JSNum.fin (mkRat n 1)
        | none => JSNum.nan
      else signedParse t
    | _ => signedParse t

/-- Number() conversion of a Lean string. -/
def jsNumber (s : String) : JSNum :=
  jsNumberChars s.data

/-- Model of the JS builtin Number() coercion on a general value. -/
def jsToNumber : JSVal → JSNum
  | JSVal.undef => JSNum.nan
  | JSVal.jnull => JSNum.fin 0
  | JSVal.bool b => JSNum.fin (if b then 1 else 0)
  | JSVal.num n => n
  | JSVal.str s => jsNumber s

/-- Model of the JS number-to-string conversion used inside template
literals.  The integral case (the only one any theorem below relies on)
mirrors JS exactly; a non-integral finite value is printed as a terminating
decimal expansion when one of length at most 30 exists (every value an
actual JS double can hold has one), and as num/den otherwise. -/
def jsNumToString : JSNum → String
  | JSNum.nan => "NaN"
  | JSNum.inf => "Infinity"
  | JSNum.neginf => "-Infinity"
  | JSNum.fin q =>
    if q.den = 1 then toString q.num
    else
      match (List.range 31).find? (fun k => 10 ^ k % q.den = 0) with
      | some k =>
        let m := q.num.natAbs * 10 ^ k / q.den
        let ds := toString m
        let ds := if ds.length ≤ k then String.mk (List.replicate (k + 1 - ds.length) '0') ++ ds else ds
        (if q.num < 0 then "-" else "") ++
          String.mk (ds.data.take (ds.length - k)) ++ "." ++
          String.mk (ds.data.drop (ds.length - k))
      | none => toString q.num ++ "/" ++ toString q.den

/-- Model of the JS builtin String() conversion on a general value. -/
def jsToString : JSVal → String
  | JSVal.undef => "undefined"
  | JSVal.jnull => "null"
  | JSVal.bool b => if b then "true" else "false"
  | JSVal.num n => jsNumToString n
  | JSVal.str s => s

/-- A raw episode record from the metadata provider ("video object" in the
source); each field is an arbitrary JS value, absent fields are undefined. -/
structure Video where
  season : JSVal
  episode : JSVal
  number : JSVal
  id : JSVal
  description : JSVal
  overview : JSVal
deriving DecidableEq

/-- The inner meta object of a metadata response: the show id (`meta.id`, a
string when present), the show description and the episode list.  A list
element that is none models a null/undefined entry in the array. -/
structure MetaInner where
  id : Option String
  description : JSVal
  videos : Option (List (Option Video))
deriving DecidableEq

/-- A metadata response as returned by the provider: an object whose meta
field may be absent.  The response itself being absent (fetch failure or
404) is modelled as an Option around this type at each use site. -/
structure MetaResp where
  meta : Option MetaInner
deriving DecidableEq

/-- Result of parseEpisodeId. -/
structure ParsedId where
  showId : String
  season : JSNum
  episode : JSNum
deriving DecidableEq

/-- Embedding of parseEpisodeId from src/utils/episode.js: reject a falsy
id, an id without the tt prefix or without a colon, or one with fewer than
3 colon-separated parts; convert parts 1 and 2 with Number() and reject
NaN; otherwise return the components. -/
def parseEpisodeId (id : String) : Option ParsedId :=
  if id = "" then none
  else if !startsTT id then none
  else if !containsColon id then none
  else
    let parts := splitOnChar ':' id.data
    if parts.length < 3 then none
    else
      let season := jsNumberChars (parts.getD 1 [])
      let episode := jsNumberChars (parts.getD 2 [])
      if jsIsNaN season || jsIsNaN episode then none
      else some ⟨String.mk (parts.getD 0 []), season, episode⟩

/-- Season/episode pair derived from a raw record. -/
structure SeasonEpisode where
  season : JSNum
  episode : JSNum
deriving DecidableEq

/-- The season field of a possibly-absent video (video && video.season,
with the falsy video itself standing in as undefined). -/
def rawVideoSeason (video : Option Video) : JSVal :=
  match video with
  | some v => v.season
  | none => JSVal.undef

/-- Number(video && video.season). -/
def rawSeasonNum (video : Option Video) : JSNum :=
  jsToNumber (rawVideoSeason video)

/-- Number(video && (video.episode || video.number)). -/
def rawEpisodeNum (video : Option Video) : JSNum :=
  jsToNumber (match video with | some v => jsOr v.episode v.number | none => JSVal.undef)

/-- The parse of the record's own identifier string, attempted only when the
id is a string (video && typeof video.id === 'string' in the source). -/
def idParsed (video : Option Video) : Option ParsedId :=
  match video with
  | some v =>
    match v.id with
    | JSVal.str s => parseEpisodeId s
    | _ => none
  | none => none

/-- The final defaulting tier: a non-finite value becomes 0. -/
def defaultFin (n : JSNum) : JSNum :=
  if jsIsFinite n then n else JSNum.fin 0

/-- Embedding of getSeasonEpisodeFromVideo from src/utils/episode.js.  The
argument none models a falsy (undefined) video, so that field accesses
guarded by the source's video && ... evaluate to undefined. -/
def getSeasonEpisodeFromVideo (video : Option Video) : SeasonEpisode :=
  let s0 := rawSeasonNum video
  let e0 := rawEpisodeNum video
  let parsed : Option ParsedId :=
    if !jsIsFinite s0 || !jsIsFinite e0 then idParsed video
    else none
  let s1 := match parsed with | some p => p.season | none => s0
  let e1 := match parsed with | some p => p.episode | none => e0
  { season := defaultFin s1, episode := defaultFin e1 }

/-- The passthrough condition of buildEpisodeId: the fallback is a truthy
string that starts with tt and contains a colon. -/
def passCond : JSVal → Bool
  | JSVal.str s => !(s = "") && startsTT s && containsColon s
  | _ => false

/-- Embedding of buildEpisodeId from src/utils/episode.js. -/
def buildEpisodeId (seriesId : Option String) (season episode : JSNum)
    (fallbackId : JSVal) : JSVal :=
  if passCond fallbackId then fallbackId
  else
    match seriesId with
    | some sid =>
      if sid = "" then (if jsTruthy fallbackId then fallbackId else JSVal.str "")
      else JSVal.str (sid ++ ":" ++ jsNumToString season ++ ":" ++ jsNumToString episode)
    | none => if jsTruthy fallbackId then fallbackId else JSVal.str ""

/-- A normalized episode as produced by normalizeEpisode. -/
structure NormalizedEpisode where
  id : JSVal
  season : JSNum
  episode : JSNum
  video : Option Video
deriving DecidableEq

/-- The series id read off a metadata response (seriesMeta.meta.id); in JS
an absent meta would throw here, which no verified call path reaches — the
claims about normalizeEpisode assume the meta object is present. -/
def metaSeriesId (sm : MetaResp) : Option String :=
  match sm.meta with
  | some mi => mi.id
  | none => none

/-- Embedding of normalizeEpisode from src/utils/episode.js.  The source
passes video-or-empty-object into getSeasonEpisodeFromVideo; an empty
object behaves exactly like the undefined video modelled by none. -/
def normalizeEpisode (seriesMeta : MetaResp) (video : Option Video) : NormalizedEpisode :=
  let se := getSeasonEpisodeFromVideo video
  let id := buildEpisodeId (metaSeriesId seriesMeta) se.season se.episode
    (match video with | some v => v.id | none => JSVal.undef)
  { id := id, season := se.season, episode := se.episode, video := video }

/-- Helper for the whitespace-collapsing regex replace in normalizeText:
every maximal run of whitespace becomes a single space; the flag records
whether the previous character was part of a whitespace run. -/
def collapseWsAux : Bool → List Char → List Char
  | _, [] => []
  | prevWs, c :: rest =>
    if isWsChar c then
      if prevWs then collapseWsAux true rest
      else ' ' :: collapseWsAux true rest
    else c :: collapseWsAux false rest

/-- Trim spaces from both ends of a character list (the String.prototype.trim
step; after collapsing, all whitespace is the plain space character). -/
def trimSpaces (l : List Char) : List Char :=
  ((l.dropWhile isWsChar).reverse.dropWhile isWsChar).reverse

/-- Embedding of normalizeText from src/utils/html.js: String(value || '')
with whitespace runs collapsed to single spaces, trimmed, lower-cased. -/
def normalizeText (value : JSVal) : String :=
  String.mk (((trimSpaces (collapseWsAux false (jsToString (jsOr value (JSVal.str ""))).data)).map Char.toLower))

/-- The episode-level description with empty-string default
((video && (video.description || video.overview)) || ''). -/
def videoDescOf (video : Option Video) : JSVal :=
  jsOr (match video with | some v => jsOr v.description v.overview | none => JSVal.undef)
    (JSVal.str "")

/-- The show-level description with empty-string default
(seriesMeta.meta.description || ''); reading it off an absent meta would
throw in JS, a case no verified claim exercises. -/
def seriesDescOf (seriesMeta : MetaResp) : JSVal :=
  jsOr (match seriesMeta.meta with | some mi => mi.description | none => JSVal.undef)
    (JSVal.str "")

/-- Embedding of resolveEpisodeDescription from src/services/description.js.
The awaited TVmaze summary (already HTML-stripped by the fetch helper, empty
on any failure) is passed in as tvmazeSummary; the source's season/episode
arguments are omitted — they are only forwarded into the TVmaze fetch that
the tvmazeSummary parameter stands for. -/
def resolveEpisodeDescription (seriesMeta : MetaResp) (video : Option Video)
    (tvmazeSummary : String) : JSVal :=
  let videoDescription := videoDescOf video
  let seriesDescription := seriesDescOf seriesMeta
  let normalizedVideo := normalizeText videoDescription
  let normalizedSeries := normalizeText seriesDescription
  if jsTruthy videoDescription && !(normalizedVideo = "") &&
      !(normalizedVideo = normalizedSeries) then
    videoDescription
  else if !(tvmazeSummary = "") then JSVal.str tvmazeSummary
  else if jsTruthy videoDescription then videoDescription
  else seriesDescription

/-- The streamable-or-fallback working set of pickEpisodeFromShow: episodes
with season > 0 and episode > 0, or all normalized videos when that
restriction removes everything. -/
def streamableSet (nvs : List NormalizedEpisode) : List NormalizedEpisode :=
  let s := nvs.filter (fun it => jsGtZero it.season && jsGtZero it.episode)
  if s.length = 0 then nvs else s

/-- The season-filter step of pickEpisodeFromShow: with a non-empty enabled
set, keep episodes whose season is in the set, reverting to the unfiltered
working set when nothing survives. -/
def applySeasonFilter (enabledSeasons : List JSNum)
    (ws : List NormalizedEpisode) : List NormalizedEpisode :=
  if enabledSeasons.length > 0 then
    let f := ws.filter (fun it => decide (it.season ∈ enabledSeasons))
    if f.length = 0 then ws else f
  else ws

/-- The unwatched partition of pickEpisodeFromShow: episodes whose id is not
in the recent-history id set (JS Set membership is SameValueZero, which on
the values produced here coincides with structural equality). -/
def unwatchedOf (recentIds : List JSVal)
    (fe : List NormalizedEpisode) : List NormalizedEpisode :=
  fe.filter (fun it => !(decide (it.id ∈ recentIds)))

/-- Result record of pickEpisodeFromShow (the show object it copies through
is not modelled; it carries no information used by any claim). -/
structure PickResult where
  seriesMeta : MetaResp
  episodeId : JSVal
  season : JSNum
  episode : JSNum
  video : Option Video
  wasUnwatched : Bool
deriving DecidableEq

/-- Embedding of pickEpisodeFromShow from src/services/randomizer.js.  The
awaited collaborators are parameters: the fetched metadata (none on fetch
failure), the enabled-season list from settings, the recent-history episode
ids, and the Math.random draw modelled by an arbitrary natural k whose
residue selects the pick index — Math.floor(Math.random()*n) ranges over
exactly the residues of k modulo n. -/
def pickEpisodeFromShow (fetched : Option MetaResp) (enabledSeasons : List JSNum)
    (recentIds : List JSVal) (k : ℕ) : Option PickResult :=
  match fetched with
  | none => none
  | some m =>
    match m.meta with
    | none => none
    | some mi =>
      match mi.videos with
      | none => none
      | some videos =>
        if videos.length = 0 then none
        else
          let nvs := videos.map (normalizeEpisode m)
          let filteredEpisodes := applySeasonFilter enabledSeasons (streamableSet nvs)
          let unwatched := unwatchedOf recentIds filteredEpisodes
          let pickPool := if unwatched.length > 0 then unwatched else filteredEpisodes
          match pickPool[k % pickPool.length]? with
          | none => none
          | some picked =>
            some { seriesMeta := m, episodeId := picked.id, season := picked.season,
                   episode := picked.episode, video := picked.video,
                   wasUnwatched := unwatched.length > 0 && decide (picked ∈ unwatched) }

/-- A tracked show as far as selection is concerned: only its id is read by
the selection engine. -/
structure UserShow where
  id : String
deriving DecidableEq

/-- The collaborators of pickSmartRandomEpisode, keyed by show id: metadata
fetch (none models both a fetch failure and a missing response), per-show
settings, per-show recent history, the per-show Math.random draw, and the
random shuffle of the show pool. -/
structure PickEnv where
  fetchMeta : String → Option MetaResp
  enabledSeasons : String → List JSNum
  recentIds : String → List JSVal
  rand : String → ℕ
  shuffle : List UserShow → List UserShow

/-- Embedding of pickSmartRandomEpisode from src/services/randomizer.js:
null on an absent or empty pool, restrict to the target show when given
(null when nothing matches), then walk the shuffled pool and return the
first per-show pick that succeeds. -/
def pickSmartRandomEpisode (userShows : Option (List UserShow))
    (targetShowId : Option String) (env : PickEnv) : Option PickResult :=
  match userShows with
  | none => none
  | some shows =>
    if shows.length = 0 then none
    else
      let showPool :=
        match targetShowId with
        | some t => shows.filter (fun s => decide (s.id = t))
        | none => shows
      if showPool.length = 0 then none
      else
        (env.shuffle showPool).findSome? (fun sh =>
          pickEpisodeFromShow (env.fetchMeta sh.id) (env.enabledSeasons sh.id)
            (env.recentIds sh.id) (env.rand sh.id))

/-- One step of the season-collecting loop of getAvailableSeasons: a JS Set
add, modelled as append-if-new (insertion order preserved). -/
def seasonStep (acc : List ℚ) (v : Option Video) : List ℚ :=
  match jsToNumber (rawVideoSeason v) with
  | JSNum.fin q => if 0 < q then (if q ∈ acc then acc else acc ++ [q]) else acc
  | _ => acc

/-- The JS Set of finite positive season numbers, in insertion order. -/
def collectSeasons (videos : List (Option Video)) : List ℚ :=
  videos.foldl seasonStep []

/-- Embedding of getAvailableSeasons from src/services/randomizer.js: the
empty list when the response, its meta or its episode list is absent;
otherwise the set of finite season numbers greater than 0 occurring among
the episode records (a JS Set, modelled as first-occurrence dedup), sorted
ascending numerically.  The season field of an episode entry (an entry
being null would throw in JS; the claim assumes entries present). -/
def getAvailableSeasons (fetched : Option MetaResp) : List ℚ :=
  match fetched with
  | none => []
  | some m =>
    match m.meta with
    | none => []
    | some mi =>
      match mi.videos with
      | none => []
      | some videos =>
        List.insertionSort (fun a b => a ≤ b) (collectSeasons videos)

/-- The ith colon-separated segment of a string (empty when out of range). -/
def segOf (s : String) (i : ℕ) : List Char :=
  (splitOnChar ':' s.data).getD i []

/-! ## Helper lemmas -/

theorem splitOnChar_length_of_not_mem (sep : Char) :
    ∀ l : List Char, sep ∉ l → (splitOnChar sep l).length = 1 := by
  intro l
  induction l with
  | nil => intro _; rfl
  | cons c rest ih =>
    intro h
    have hc : ¬(c = sep) := fun he => h (he ▸ List.mem_cons_self c rest)
    have hrest : sep ∉ rest := fun hm => h (List.mem_cons_of_mem c hm)
    have hlen := ih hrest
    simp only [splitOnChar, if_neg hc]
    cases hr : splitOnChar sep rest with
    | nil => rw [hr] at hlen; simp at hlen
    | cons a t =>
      rw [hr] at hlen
      simp at hlen ⊢
      exact hlen

theorem parseEpisodeId_eq (s : String) :
    parseEpisodeId s =
      if s = "" then none
      else if !startsTT s then none
      else if !containsColon s then none
      else if (splitOnChar ':' s.data).length < 3 then none
      else if jsIsNaN (jsNumberChars (segOf s 1)) || jsIsNaN (jsNumberChars (segOf s 2)) then none
      else some ⟨String.mk (segOf s 0), jsNumberChars (segOf s 1), jsNumberChars (segOf s 2)⟩ := by
  rfl

/-- Claim C4 (amended): parseEpisodeId returns a non-null result exactly
when the text starts with the tt prefix, splits into at least 3
colon-separated parts, and the second and third parts convert to non-NaN
JS numbers (so Infinity, decimals, an empty part and extra trailing parts
are all accepted); in the non-null case the result is the first part as
showId and the Number() conversions of the second and third parts. -/
theorem claim4_amended (s : String) :
    (parseEpisodeId s ≠ none ↔
      (startsTT s = true ∧ 3 ≤ (splitOnChar ':' s.data).length ∧
        jsIsNaN (jsNumberChars (segOf s 1)) = false ∧
        jsIsNaN (jsNumberChars (segOf s 2)) = false)) ∧
    ∀ r, parseEpisodeId s = some r →
      r = ⟨String.mk (segOf s 0), jsNumberChars (segOf s 1), jsNumberChars (segOf s 2)⟩ := by
  rw [parseEpisodeId_eq]
  split_ifs with h0 h1 h2 h3 h4
  · subst h0
    constructor
    · simp only [ne_eq, not_true_eq_false, false_iff]
      intro hcon
      exact absurd hcon.1 (by decide)
    · intro r hr
      exact absurd hr (by simp)
  · constructor
    · simp only [ne_eq, not_true_eq_false, false_iff]
      intro hcon
      rw [hcon.1] at h1
      simp at h1
    · intro r hr
      exact absurd hr (by simp)
  · have hcc : containsColon s = false := by
      revert h2
      cases containsColon s <;> simp
    have hmem : ':' ∉ s.data := by
      simp only [containsColon] at hcc
      simpa using hcc
    have hlen := splitOnChar_length_of_not_mem ':' s.data hmem
    constructor
    · simp only [ne_eq, not_true_eq_false, false_iff]
      intro hcon
      omega
    · intro r hr
      exact absurd hr (by simp)
  · constructor
    · simp only [ne_eq, not_true_eq_false, false_iff]
      intro hcon
      omega
    · intro r hr
      exact absurd hr (by simp)
  · constructor
    · simp only [ne_eq, not_true_eq_false, false_iff]
      intro hcon
      rw [hcon.2.2.1, hcon.2.2.2] at h4
      exact absurd h4 (by simp)
    · intro r hr
      exact absurd hr (by simp)
  · constructor
    · simp only [ne_eq, reduceCtorEq, not_false_eq_true, true_iff]
      refine ⟨?_, by omega, ?_, ?_⟩
      · revert h1
        cases startsTT s <;> simp
      · revert h4
        cases jsIsNaN (jsNumberChars (segOf s 1)) <;> simp
      · revert h4
        cases jsIsNaN (jsNumberChars (segOf s 2)) <;> simp
    · intro r hr
      cases hr
      rfl

/-- Claim C4 counterexample: the claim requires both numeric segments to
parse as finite numbers and the text to match showId:integer:integer, but
the code only rejects NaN — "tt1:Infinity:2" has a non-finite segment yet
parses, and "tt1:2:3:4" has four colon-separated parts (so cannot match the
three-part pattern) yet parses with the fourth part ignored. -/
theorem claim4_counterexample :
    parseEpisodeId "tt1:Infinity:2" = some ⟨"tt1", JSNum.inf, JSNum.fin 2⟩ ∧
    jsIsFinite (jsNumber "Infinity") = false ∧
    parseEpisodeId "tt1:2:3:4" = some ⟨"tt1", JSNum.fin 2, JSNum.fin 3⟩ ∧
    (splitOnChar ':' "tt1:2:3:4".data).length = 4 := by
  decide

/-- Witness for claim C4 at the well-formed input "tt1:2:3". -/
theorem claim4_witness :
    parseEpisodeId "tt1:2:3" ≠ none ∧
    ParsedId.mk "tt1" (JSNum.fin 2) (JSNum.fin 3) =
      ⟨String.mk (segOf "tt1:2:3" 0), jsNumberChars (segOf "tt1:2:3" 1),
        jsNumberChars (segOf "tt1:2:3" 2)⟩ := by
  constructor
  · exact (claim4_amended "tt1:2:3").1.mpr (by decide)
  · exact (claim4_amended "tt1:2:3").2 ⟨"tt1", JSNum.fin 2, JSNum.fin 3⟩ (by decide)

theorem buildEpisodeId_pass (seriesId : Option String) (season episode : JSNum)
    (fallbackId : JSVal) (h : passCond fallbackId = true) :
    buildEpisodeId seriesId season episode fallbackId = fallbackId := by
  simp [buildEpisodeId, h]

theorem buildEpisodeId_synth (sid : String) (season episode : JSNum) (fallbackId : JSVal)
    (h : passCond fallbackId = false) (hs : sid ≠ "") :
    buildEpisodeId (some sid) season episode fallbackId =
      JSVal.str (sid ++ ":" ++ jsNumToString season ++ ":" ++ jsNumToString episode) := by
  simp [buildEpisodeId, h, hs]

theorem buildEpisodeId_noSeries (seriesId : Option String) (season episode : JSNum)
    (fallbackId : JSVal) (h : passCond fallbackId = false)
    (hnil : seriesId = none ∨ seriesId = some "") :
    buildEpisodeId seriesId season episode fallbackId =
      (if jsTruthy fallbackId then fallbackId else JSVal.str "") := by
  rcases hnil with h1 | h1 <;> subst h1 <;> simp [buildEpisodeId, h]

theorem passCond_of_parse (s : String) (h : parseEpisodeId s ≠ none) :
    passCond (JSVal.str s) = true := by
  rw [parseEpisodeId_eq] at h
  split_ifs at h with h0 h1 h2 h3 h4
  · exact absurd rfl h
  · exact absurd rfl h
  · exact absurd rfl h
  · exact absurd rfl h
  · exact absurd rfl h
  · have hb1 : startsTT s = true := by revert h1; cases startsTT s <;> simp
    have hb2 : containsColon s = true := by revert h2; cases containsColon s <;> simp
    simp [passCond, h0, hb1, hb2]

theorem bool_eq_false_of_ne_true {b : Bool} (h : ¬ b = true) : b = false := by
  revert h
  cases b <;> simp

theorem buildEpisodeId_idem (seriesId : Option String) (season episode : JSNum)
    (fallbackId : JSVal) :
    buildEpisodeId seriesId season episode (buildEpisodeId seriesId season episode fallbackId) =
      buildEpisodeId seriesId season episode fallbackId := by
  by_cases hp : passCond fallbackId = true
  · rw [buildEpisodeId_pass _ _ _ _ hp, buildEpisodeId_pass _ _ _ _ hp]
  · have hp' := bool_eq_false_of_ne_true hp
    have noSeries : ∀ hnil : seriesId = none ∨ seriesId = some "",
        buildEpisodeId seriesId season episode
            (buildEpisodeId seriesId season episode fallbackId) =
          buildEpisodeId seriesId season episode fallbackId := by
      intro hnil
      rw [buildEpisodeId_noSeries _ _ _ _ hp' hnil]
      by_cases ht : jsTruthy fallbackId = true
      · rw [if_pos ht, buildEpisodeId_noSeries _ _ _ _ hp' hnil, if_pos ht]
      · rw [if_neg ht, buildEpisodeId_noSeries _ _ _ _ (by decide) hnil]
        simp [jsTruthy]
    cases hser : seriesId with
    | none => exact hser ▸ noSeries (hser ▸ Or.inl rfl)
    | some sid =>
      by_cases hs : sid = ""
      · subst hs
        exact hser ▸ noSeries (hser ▸ Or.inr rfl)
      · rw [buildEpisodeId_synth sid _ _ _ hp' hs]
        by_cases hq : passCond (JSVal.str (sid ++ ":" ++ jsNumToString season ++ ":" ++
            jsNumToString episode)) = true
        · rw [buildEpisodeId_pass _ _ _ _ hq]
        · rw [buildEpisodeId_synth sid _ _ _ (bool_eq_false_of_ne_true hq) hs]

/-- Claim C5 (amended): buildEpisodeId passes the fallback through exactly
under the weaker check the code performs — the fallback is a non-empty
string that starts with tt and contains a colon (every id valid per the
full parse rule also satisfies this, but not conversely); otherwise it
synthesizes seriesId:season:episode when the seriesId is a non-empty
string, and returns the fallback (or the empty string when the fallback is
falsy) when the seriesId is absent or empty. -/
theorem claim5_amended (seriesId : Option String) (season episode : JSNum)
    (fallbackId : JSVal) :
    (passCond fallbackId = true →
      buildEpisodeId seriesId season episode fallbackId = fallbackId) ∧
    (∀ s, fallbackId = JSVal.str s → parseEpisodeId s ≠ none →
      buildEpisodeId seriesId season episode fallbackId = fallbackId) ∧
    (passCond fallbackId = false → ∀ sid, seriesId = some sid → sid ≠ "" →
      buildEpisodeId seriesId season episode fallbackId =
        JSVal.str (sid ++ ":" ++ jsNumToString season ++ ":" ++ jsNumToString episode)) ∧
    (passCond fallbackId = false → (seriesId = none ∨ seriesId = some "") →
      buildEpisodeId seriesId season episode fallbackId =
        (if jsTruthy fallbackId then fallbackId else JSVal.str "")) := by
  refine ⟨?_, ?_, ?_, ?_⟩
  · intro h
    exact buildEpisodeId_pass _ _ _ _ h
  · intro s hf hparse
    subst hf
    exact buildEpisodeId_pass _ _ _ _ (passCond_of_parse s hparse)
  · intro hp sid hsid hne
    subst hsid
    exact buildEpisodeId_synth sid _ _ _ hp hne
  · intro hp hnil
    exact buildEpisodeId_noSeries _ _ _ _ hp hnil

/-- Claim C5 counterexample: "tt1:abc" is not well-formed per the parse
rule (parseEpisodeId rejects it), yet buildEpisodeId passes it through
unchanged instead of synthesizing "tt9:1:2" as the claim requires. -/
theorem claim5_counterexample :
    buildEpisodeId (some "tt9") (JSNum.fin 1) (JSNum.fin 2) (JSVal.str "tt1:abc") =
      JSVal.str "tt1:abc" ∧
    parseEpisodeId "tt1:abc" = none ∧
    JSVal.str "tt1:abc" ≠
      JSVal.str ("tt9" ++ ":" ++ jsNumToString (JSNum.fin 1) ++ ":" ++
        jsNumToString (JSNum.fin 2)) := by
  decide

/-- Witness for claim C5: passthrough of a valid id, synthesis from a
series id, and fallback behavior with an absent series id. -/
theorem claim5_witness :
    buildEpisodeId (some "tt9") (JSNum.fin 1) (JSNum.fin 2) (JSVal.str "tt3:4:5") =
      JSVal.str "tt3:4:5" ∧
    buildEpisodeId (some "tt9") (JSNum.fin 1) (JSNum.fin 2) JSVal.undef =
      JSVal.str ("tt9" ++ ":" ++ jsNumToString (JSNum.fin 1) ++ ":" ++
        jsNumToString (JSNum.fin 2)) ∧
    buildEpisodeId none (JSNum.fin 1) (JSNum.fin 2) JSVal.undef =
      (if jsTruthy JSVal.undef then JSVal.undef else JSVal.str "") := by
  refine ⟨?_, ?_, ?_⟩
  · exact (claim5_amended (some "tt9") (JSNum.fin 1) (JSNum.fin 2)
      (JSVal.str "tt3:4:5")).2.1 "tt3:4:5" rfl (by decide)
  · exact (claim5_amended (some "tt9") (JSNum.fin 1) (JSNum.fin 2)
      JSVal.undef).2.2.1 (by decide) "tt9" rfl (by decide)
  · exact (claim5_amended none (JSNum.fin 1) (JSNum.fin 2)
      JSVal.undef).2.2.2 (by decide) (Or.inl rfl)

/-- Claim C6 (confirmed): buildEpisodeId is idempotent — feeding its
output back in as the fallback with the same other arguments returns the
same string — and the id of a normalized episode fed back as fallback with
the normalized record's own season/episode reproduces itself. -/
theorem claim6_idempotent_roundtrip :
    (∀ (seriesId : Option String) (season episode : JSNum) (fallbackId : JSVal),
      buildEpisodeId seriesId season episode
          (buildEpisodeId seriesId season episode fallbackId) =
        buildEpisodeId seriesId season episode fallbackId) ∧
    (∀ (sm : MetaResp) (mi : MetaInner) (video : Option Video), sm.meta = some mi →
      buildEpisodeId mi.id (normalizeEpisode sm video).season
          (normalizeEpisode sm video).episode (normalizeEpisode sm video).id =
        (normalizeEpisode sm video).id) := by
  constructor
  · intro seriesId season episode fallbackId
    exact buildEpisodeId_idem seriesId season episode fallbackId
  · intro sm mi video hm
    simp only [normalizeEpisode, metaSeriesId, hm]
    exact buildEpisodeId_idem mi.id _ _ _

/-- Witness for claim C6 at a concrete series meta and record. -/
theorem claim6_witness :
    buildEpisodeId (some "tt7") (JSNum.fin 3) (JSNum.fin 4)
        (buildEpisodeId (some "tt7") (JSNum.fin 3) (JSNum.fin 4) JSVal.undef) =
      buildEpisodeId (some "tt7") (JSNum.fin 3) (JSNum.fin 4) JSVal.undef ∧
    buildEpisodeId (some "tt7")
        (normalizeEpisode ⟨some ⟨some "tt7", JSVal.undef, none⟩⟩ none).season
        (normalizeEpisode ⟨some ⟨some "tt7", JSVal.undef, none⟩⟩ none).episode
        (normalizeEpisode ⟨some ⟨some "tt7", JSVal.undef, none⟩⟩ none).id =
      (normalizeEpisode ⟨some ⟨some "tt7", JSVal.undef, none⟩⟩ none).id := by
  constructor
  · exact claim6_idempotent_roundtrip.1 (some "tt7") (JSNum.fin 3) (JSNum.fin 4) JSVal.undef
  · exact claim6_idempotent_roundtrip.2 ⟨some ⟨some "tt7", JSVal.undef, none⟩⟩
      ⟨some "tt7", JSVal.undef, none⟩ none rfl

/-- Claim C7 counterexample: the record has a finite season field (2), a
non-finite episode field, and an id that parses to season 5 — the claim
says the returned season must stay 2 (independent per-field fallback), but
the code's parse tier overwrites both fields, returning season 5. -/
theorem claim7_counterexample :
    getSeasonEpisodeFromVideo
        (some ⟨JSVal.num (JSNum.fin 2), JSVal.undef, JSVal.undef,
          JSVal.str "tt1:5:3", JSVal.undef, JSVal.undef⟩) =
      ⟨JSNum.fin 5, JSNum.fin 3⟩ ∧
    jsIsFinite (rawSeasonNum
      (some ⟨JSVal.num (JSNum.fin 2), JSVal.undef, JSVal.undef,
        JSVal.str "tt1:5:3", JSVal.undef, JSVal.undef⟩)) = true ∧
    rawSeasonNum
      (some ⟨JSVal.num (JSNum.fin 2), JSVal.undef, JSVal.undef,
        JSVal.str "tt1:5:3", JSVal.undef, JSVal.undef⟩) = JSNum.fin 2 ∧
    ¬(JSNum.fin 5 = JSNum.fin 2) := by
  decide

/-- Claim C7 (amended): the explicit-field tier applies per field, but the
identifier-parse tier applies jointly — when either derived field is
non-finite and the record's id parses, BOTH season and episode are replaced
by the parsed values; any field still non-finite after that defaults to 0
independently. -/
theorem claim7_amended (video : Option Video) :
    (jsIsFinite (rawSeasonNum video) = true → jsIsFinite (rawEpisodeNum video) = true →
      getSeasonEpisodeFromVideo video = ⟨rawSeasonNum video, rawEpisodeNum video⟩) ∧
    ((jsIsFinite (rawSeasonNum video) = false ∨ jsIsFinite (rawEpisodeNum video) = false) →
      ∀ p, idParsed video = some p →
        getSeasonEpisodeFromVideo video = ⟨defaultFin p.season, defaultFin p.episode⟩) ∧
    ((jsIsFinite (rawSeasonNum video) = false ∨ jsIsFinite (rawEpisodeNum video) = false) →
      idParsed video = none →
        getSeasonEpisodeFromVideo video =
          ⟨defaultFin (rawSeasonNum video), defaultFin (rawEpisodeNum video)⟩) := by
  refine ⟨?_, ?_, ?_⟩
  · intro hs he
    simp only [getSeasonEpisodeFromVideo, hs, he, Bool.not_true, Bool.or_self,
      Bool.false_eq_true, if_false]
    rw [defaultFin, if_pos hs, defaultFin, if_pos he]
  · intro hor p hp
    have hcond : (!jsIsFinite (rawSeasonNum video) || !jsIsFinite (rawEpisodeNum video)) = true := by
      rcases hor with h | h <;> simp [h]
    simp only [getSeasonEpisodeFromVideo, hcond, if_true, hp]
  · intro hor hp
    have hcond : (!jsIsFinite (rawSeasonNum video) || !jsIsFinite (rawEpisodeNum video)) = true := by
      rcases hor with h | h <;> simp [h]
    simp only [getSeasonEpisodeFromVideo, hcond, if_true, hp]

/-- Witness for claim C7: both fields finite (tier 1), parse overwrite
(tier 2), and defaulting with no parse (tier 3). -/
theorem claim7_witness :
    getSeasonEpisodeFromVideo
        (some ⟨JSVal.num (JSNum.fin 3), JSVal.num (JSNum.fin 4), JSVal.undef,
          JSVal.undef, JSVal.undef, JSVal.undef⟩) =
      ⟨JSNum.fin 3, JSNum.fin 4⟩ ∧
    getSeasonEpisodeFromVideo
        (some ⟨JSVal.undef, JSVal.undef, JSVal.undef, JSVal.str "tt1:5:3",
          JSVal.undef, JSVal.undef⟩) =
      ⟨JSNum.fin 5, JSNum.fin 3⟩ ∧
    getSeasonEpisodeFromVideo none = ⟨JSNum.fin 0, JSNum.fin 0⟩ := by
  refine ⟨?_, ?_, ?_⟩
  · have h := (claim7_amended
      (some ⟨JSVal.num (JSNum.fin 3), JSVal.num (JSNum.fin 4), JSVal.undef,
        JSVal.undef, JSVal.undef, JSVal.undef⟩)).1 (by decide) (by decide)
    rw [h]
    decide
  · have h := (claim7_amended
      (some ⟨JSVal.undef, JSVal.undef, JSVal.undef, JSVal.str "tt1:5:3",
        JSVal.undef, JSVal.undef⟩)).2.1 (Or.inl (by decide))
      ⟨"tt1", JSNum.fin 5, JSNum.fin 3⟩ (by decide)
    rw [h]
    decide
  · have h := (claim7_amended none).2.2 (Or.inl (by decide)) (by decide)
    rw [h]
    decide

/-- Claim C9 counterexample: the claimed invariant season ≥ 0 and
integrality fail — a record with season field -1 normalizes to season -1,
and one with season field 2.5 normalizes to the non-integral 5/2. -/
theorem claim9_counterexample :
    (normalizeEpisode ⟨some ⟨some "tt1", JSVal.undef, none⟩⟩
        (some ⟨JSVal.num (JSNum.fin (-1)), JSVal.num (JSNum.fin 1), JSVal.undef,
          JSVal.undef, JSVal.undef, JSVal.undef⟩)).season = JSNum.fin (-1) ∧
    ((-1 : ℚ) < 0) ∧
    (normalizeEpisode ⟨some ⟨some "tt1", JSVal.undef, none⟩⟩
        (some ⟨JSVal.num (JSNum.fin (mkRat 5 2)), JSVal.num (JSNum.fin 1), JSVal.undef,
          JSVal.undef, JSVal.undef, JSVal.undef⟩)).season = JSNum.fin (mkRat 5 2) ∧
    (mkRat 5 2).den ≠ 1 := by
  decide

/-- Claim C9 (amended): for every series meta and raw record, the
normalized season and episode are finite JS numbers (never NaN or an
infinity); nonnegativity and integrality are not enforced by the code. -/
theorem claim9_amended (sm : MetaResp) (video : Option Video) :
    jsIsFinite (normalizeEpisode sm video).season = true ∧
    jsIsFinite (normalizeEpisode sm video).episode = true := by
  have hse : ∀ n : JSNum, jsIsFinite (defaultFin n) = true := by
    intro n
    by_cases h : jsIsFinite n = true
    · rw [defaultFin, if_pos h]
      exact h
    · rw [defaultFin, if_neg h]
      rfl
  constructor
  · simp only [normalizeEpisode, getSeasonEpisodeFromVideo]
    exact hse _
  · simp only [normalizeEpisode, getSeasonEpisodeFromVideo]
    exact hse _

/-- Claim C8 (confirmed): when the episode-level description is non-empty
but normalizes identically to the show-level description, the resolver does
not return it at the unique-description step — it falls through to the
secondary provider, then to the raw episode description, then to the
show-level description; and when the normalized episode description is
non-empty and differs, the raw episode-level value is returned verbatim. -/
theorem claim8_description (sm : MetaResp) (mi : MetaInner) (video : Option Video)
    (t : String) (hm : sm.meta = some mi) :
    (jsTruthy (videoDescOf video) = true →
      normalizeText (videoDescOf video) ≠ "" →
      normalizeText (videoDescOf video) ≠ normalizeText (jsOr mi.description (JSVal.str "")) →
      resolveEpisodeDescription sm video t = videoDescOf video) ∧
    (normalizeText (videoDescOf video) = normalizeText (jsOr mi.description (JSVal.str "")) →
      resolveEpisodeDescription sm video t =
        (if t ≠ "" then JSVal.str t
         else if jsTruthy (videoDescOf video) = true then videoDescOf video
         else jsOr mi.description (JSVal.str ""))) := by
  have hsd : seriesDescOf sm = jsOr mi.description (JSVal.str "") := by
    simp [seriesDescOf, hm]
  constructor
  · intro h1 h2 h3
    simp only [resolveEpisodeDescription, hsd]
    simp [h1, h2, h3]
  · intro heq
    by_cases ht : t = ""
    · by_cases hv : jsTruthy (videoDescOf video) = true
      · simp only [resolveEpisodeDescription, hsd, heq]
        simp [ht, hv]
      · simp only [resolveEpisodeDescription, hsd, heq]
        simp [ht, hv]
    · simp only [resolveEpisodeDescription, hsd, heq]
      simp [ht]

/-- Witness for claim C8: an episode description identical (after
normalization) to the show description yields the TVmaze text, and a
distinct episode description is returned verbatim. -/
theorem claim8_witness :
    resolveEpisodeDescription ⟨some ⟨some "tt1", JSVal.str "A detective show.", none⟩⟩
        (some ⟨JSVal.undef, JSVal.undef, JSVal.undef, JSVal.undef,
          JSVal.str " A  detective SHOW. ", JSVal.undef⟩) "Tvmaze says." =
      JSVal.str "Tvmaze says." ∧
    resolveEpisodeDescription ⟨some ⟨some "tt1", JSVal.str "A detective show.", none⟩⟩
        (some ⟨JSVal.undef, JSVal.undef, JSVal.undef, JSVal.undef,
          JSVal.str "Unique episode text.", JSVal.undef⟩) "" =
      JSVal.str "Unique episode text." := by
  constructor
  · have h := (claim8_description ⟨some ⟨some "tt1", JSVal.str "A detective show.", none⟩⟩
      ⟨some "tt1", JSVal.str "A detective show.", none⟩
      (some ⟨JSVal.undef, JSVal.undef, JSVal.undef, JSVal.undef,
        JSVal.str " A  detective SHOW. ", JSVal.undef⟩) "Tvmaze says." rfl).2 (by decide)
    rw [h]
    decide
  · have h := (claim8_description ⟨some ⟨some "tt1", JSVal.str "A detective show.", none⟩⟩
      ⟨some "tt1", JSVal.str "A detective show.", none⟩
      (some ⟨JSVal.undef, JSVal.undef, JSVal.undef, JSVal.undef,
        JSVal.str "Unique episode text.", JSVal.undef⟩) "" rfl).1
      (by decide) (by decide) (by decide)
    rw [h]
    decide

theorem mem_seasonStep (acc : List ℚ) (v : Option Video) (q : ℚ) :
    q ∈ seasonStep acc v ↔
      q ∈ acc ∨ (0 < q ∧ jsToNumber (rawVideoSeason v) = JSNum.fin q) := by
  cases h : jsToNumber (rawVideoSeason v) with
  | fin q' =>
    by_cases hq : 0 < q'
    · by_cases hmem : q' ∈ acc
      · simp only [seasonStep, h, if_pos hq, if_pos hmem, JSNum.fin.injEq]
        constructor
        · exact Or.inl
        · rintro (hin | ⟨hq2, rfl⟩)
          · exact hin
          · exact hmem
      · simp only [seasonStep, h, if_pos hq, if_neg hmem, List.mem_append,
          List.mem_singleton, JSNum.fin.injEq]
        constructor
        · rintro (hin | rfl)
          · exact Or.inl hin
          · exact Or.inr ⟨hq, rfl⟩
        · rintro (hin | ⟨hq2, rfl⟩)
          · exact Or.inl hin
          · exact Or.inr rfl
    · simp only [seasonStep, h, if_neg hq, JSNum.fin.injEq]
      constructor
      · exact Or.inl
      · rintro (hin | ⟨hq2, rfl⟩)
        · exact hin
        · exact absurd hq2 hq
  | nan => simp [seasonStep, h]
  | inf => simp [seasonStep, h]
  | neginf => simp [seasonStep, h]

theorem nodup_seasonStep (acc : List ℚ) (v : Option Video) (h : acc.Nodup) :
    (seasonStep acc v).Nodup := by
  cases hj : jsToNumber (rawVideoSeason v) with
  | fin q' =>
    by_cases hq : 0 < q'
    · by_cases hmem : q' ∈ acc
      · simpa only [seasonStep, hj, if_pos hq, if_pos hmem] using h
      · simp only [seasonStep, hj, if_pos hq, if_neg hmem]
        rw [List.nodup_append]
        exact ⟨h, List.nodup_singleton q', by simp [hmem]⟩
    · simpa only [seasonStep, hj, if_neg hq] using h
  | nan => simpa [seasonStep, hj] using h
  | inf => simpa [seasonStep, hj] using h
  | neginf => simpa [seasonStep, hj] using h

theorem mem_collect_aux (l : List (Option Video)) :
    ∀ (acc : List ℚ) (q : ℚ), q ∈ l.foldl seasonStep acc ↔
      q ∈ acc ∨ (0 < q ∧ ∃ v ∈ l, jsToNumber (rawVideoSeason v) = JSNum.fin q) := by
  induction l with
  | nil => simp
  | cons v rest ih =>
    intro acc q
    simp only [List.foldl_cons]
    rw [ih, mem_seasonStep]
    rw [List.exists_mem_cons_iff]
    tauto

theorem nodup_collect_aux (l : List (Option Video)) :
    ∀ acc : List ℚ, acc.Nodup → (l.foldl seasonStep acc).Nodup := by
  induction l with
  | nil => intro acc h; exact h
  | cons v rest ih =>
    intro acc h
    exact ih _ (nodup_seasonStep acc v h)

theorem collectSeasons_mem (videos : List (Option Video)) (q : ℚ) :
    q ∈ collectSeasons videos ↔
      0 < q ∧ ∃ v ∈ videos, jsToNumber (rawVideoSeason v) = JSNum.fin q := by
  rw [collectSeasons, mem_collect_aux]
  simp

theorem collectSeasons_nodup (videos : List (Option Video)) :
    (collectSeasons videos).Nodup :=
  nodup_collect_aux videos [] List.nodup_nil

/-- Claim C10 (confirmed): getAvailableSeasons returns the empty list when
the metadata, its meta object or its episode list is absent, and otherwise
a duplicate-free, strictly ascending list containing exactly the finite
season numbers greater than 0 appearing among the episode records. -/
theorem claim10_availableSeasons :
    getAvailableSeasons none = [] ∧
    (∀ m : MetaResp, m.meta = none → getAvailableSeasons (some m) = []) ∧
    (∀ (m : MetaResp) (mi : MetaInner), m.meta = some mi → mi.videos = none →
      getAvailableSeasons (some m) = []) ∧
    (∀ (m : MetaResp) (mi : MetaInner) (videos : List (Option Video)),
      m.meta = some mi → mi.videos = some videos →
      (getAvailableSeasons (some m)).Sorted (fun a b => a < b) ∧
      (getAvailableSeasons (some m)).Nodup ∧
      (∀ q : ℚ, q ∈ getAvailableSeasons (some m) ↔
        (0 < q ∧ ∃ v ∈ videos, jsToNumber (rawVideoSeason v) = JSNum.fin q))) := by
  refine ⟨rfl, ?_, ?_, ?_⟩
  · intro m hm
    simp [getAvailableSeasons, hm]
  · intro m mi hm hv
    simp [getAvailableSeasons, hm, hv]
  · intro m mi videos hm hv
    have hval : getAvailableSeasons (some m) =
        List.insertionSort (fun a b => a ≤ b) (collectSeasons videos) := by
      simp [getAvailableSeasons, hm, hv]
    have hperm := List.perm_insertionSort (fun a b : ℚ => a ≤ b) (collectSeasons videos)
    have hnodup : (List.insertionSort (fun a b : ℚ => a ≤ b) (collectSeasons videos)).Nodup :=
      hperm.nodup_iff.mpr (collectSeasons_nodup videos)
    have hsorted := List.sorted_insertionSort (fun a b : ℚ => a ≤ b) (collectSeasons videos)
    refine ⟨?_, ?_, ?_⟩
    · rw [hval]
      exact List.Sorted.lt_of_le hsorted hnodup
    · rw [hval]
      exact hnodup
    · intro q
      rw [hval, hperm.mem_iff]
      exact collectSeasons_mem videos q

/-- Witness for claim C10 at a metadata response with seasons 3, 1, 3, 0. -/
theorem claim10_witness :
    (getAvailableSeasons (some ⟨some ⟨some "tt1", JSVal.undef, some
        [some ⟨JSVal.num (JSNum.fin 3), JSVal.undef, JSVal.undef, JSVal.undef, JSVal.undef, JSVal.undef⟩,
         some ⟨JSVal.num (JSNum.fin 1), JSVal.undef, JSVal.undef, JSVal.undef, JSVal.undef, JSVal.undef⟩,
         some ⟨JSVal.num (JSNum.fin 3), JSVal.undef, JSVal.undef, JSVal.undef, JSVal.undef, JSVal.undef⟩,
         some ⟨JSVal.num (JSNum.fin 0), JSVal.undef, JSVal.undef, JSVal.undef, JSVal.undef, JSVal.undef⟩]⟩⟩)).Nodup ∧
    (1 : ℚ) ∈ getAvailableSeasons (some ⟨some ⟨some "tt1", JSVal.undef, some
        [some ⟨JSVal.num (JSNum.fin 3), JSVal.undef, JSVal.undef, JSVal.undef, JSVal.undef, JSVal.undef⟩,
         some ⟨JSVal.num (JSNum.fin 1), JSVal.undef, JSVal.undef, JSVal.undef, JSVal.undef, JSVal.undef⟩,
         some ⟨JSVal.num (JSNum.fin 3), JSVal.undef, JSVal.undef, JSVal.undef, JSVal.undef, JSVal.undef⟩,
         some ⟨JSVal.num (JSNum.fin 0), JSVal.undef, JSVal.undef, JSVal.undef, JSVal.undef, JSVal.undef⟩]⟩⟩) := by
  have h := claim10_availableSeasons.2.2.2
    ⟨some ⟨some "tt1", JSVal.undef, some
        [some ⟨JSVal.num (JSNum.fin 3), JSVal.undef, JSVal.undef, JSVal.undef, JSVal.undef, JSVal.undef⟩,
         some ⟨JSVal.num (JSNum.fin 1), JSVal.undef, JSVal.undef, JSVal.undef, JSVal.undef, JSVal.undef⟩,
         some ⟨JSVal.num (JSNum.fin 3), JSVal.undef, JSVal.undef, JSVal.undef, JSVal.undef, JSVal.undef⟩,
         some ⟨JSVal.num (JSNum.fin 0), JSVal.undef, JSVal.undef, JSVal.undef, JSVal.undef, JSVal.undef⟩]⟩⟩
    ⟨some "tt1", JSVal.undef, some
        [some ⟨JSVal.num (JSNum.fin 3), JSVal.undef, JSVal.undef, JSVal.undef, JSVal.undef, JSVal.undef⟩,
         some ⟨JSVal.num (JSNum.fin 1), JSVal.undef, JSVal.undef, JSVal.undef, JSVal.undef, JSVal.undef⟩,
         some ⟨JSVal.num (JSNum.fin 3), JSVal.undef, JSVal.undef, JSVal.undef, JSVal.undef, JSVal.undef⟩,
         some ⟨JSVal.num (JSNum.fin 0), JSVal.undef, JSVal.undef, JSVal.undef, JSVal.undef, JSVal.undef⟩]⟩
    [some ⟨JSVal.num (JSNum.fin 3), JSVal.undef, JSVal.undef, JSVal.undef, JSVal.undef, JSVal.undef⟩,
     some ⟨JSVal.num (JSNum.fin 1), JSVal.undef, JSVal.undef, JSVal.undef, JSVal.undef, JSVal.undef⟩,
     some ⟨JSVal.num (JSNum.fin 3), JSVal.undef, JSVal.undef, JSVal.undef, JSVal.undef, JSVal.undef⟩,
     some ⟨JSVal.num (JSNum.fin 0), JSVal.undef, JSVal.undef, JSVal.undef, JSVal.undef, JSVal.undef⟩]
    rfl rfl
  refine ⟨h.2.1, (h.2.2 1).mpr ⟨by norm_num, ?_⟩⟩
  refine ⟨some ⟨JSVal.num (JSNum.fin 1), JSVal.undef, JSVal.undef, JSVal.undef, JSVal.undef, JSVal.undef⟩, ?_, by decide⟩
  simp

theorem streamableSet_ne_nil {nvs : List NormalizedEpisode} (h : nvs ≠ []) :
    streamableSet nvs ≠ [] := by
  unfold streamableSet
  by_cases hl : (nvs.filter (fun it => jsGtZero it.season && jsGtZero it.episode)).length = 0
  · simpa [hl] using h
  · simp only [hl, if_false]
    intro hc
    exact hl (by rw [hc]; rfl)

theorem mem_streamableSet {nvs : List NormalizedEpisode} :
    ∀ x ∈ streamableSet nvs, x ∈ nvs := by
  intro x hx
  unfold streamableSet at hx
  by_cases hl : (nvs.filter (fun it => jsGtZero it.season && jsGtZero it.episode)).length = 0
  · simpa [hl] using hx
  · simp only [hl, if_false] at hx
    exact (List.mem_filter.mp hx).1

theorem applySeasonFilter_ne_nil (es : List JSNum) {ws : List NormalizedEpisode}
    (h : ws ≠ []) : applySeasonFilter es ws ≠ [] := by
  unfold applySeasonFilter
  by_cases he : es.length > 0
  · simp only [he, if_true]
    by_cases hl : (ws.filter (fun it => decide (it.season ∈ es))).length = 0
    · simpa [hl] using h
    · simp only [hl, if_false]
      intro hc
      exact hl (by rw [hc]; rfl)
  · simpa [he] using h

theorem mem_applySeasonFilter (es : List JSNum) {ws : List NormalizedEpisode} :
    ∀ x ∈ applySeasonFilter es ws, x ∈ ws := by
  intro x hx
  unfold applySeasonFilter at hx
  by_cases he : es.length > 0
  · simp only [he, if_true] at hx
    by_cases hl : (ws.filter (fun it => decide (it.season ∈ es))).length = 0
    · simpa [hl] using hx
    · simp only [hl, if_false] at hx
      exact (List.mem_filter.mp hx).1
  · simpa [he] using hx

theorem applySeasonFilter_singleton_season {ws : List NormalizedEpisode} (σ : JSNum)
    (hex : ∃ it ∈ ws, it.season = σ) :
    ∀ x ∈ applySeasonFilter [σ] ws, x.season = σ := by
  intro x hx
  obtain ⟨it, hmem, hseason⟩ := hex
  have hit : it ∈ ws.filter (fun it => decide (it.season ∈ [σ])) := by
    rw [List.mem_filter]
    exact ⟨hmem, by simp [hseason]⟩
  have hl : ¬ (ws.filter (fun it => decide (it.season ∈ [σ]))).length = 0 := by
    intro hc
    rw [List.length_eq_zero] at hc
    rw [hc] at hit
    exact absurd hit (List.not_mem_nil it)
  unfold applySeasonFilter at hx
  simp only [List.length_singleton, Nat.zero_lt_one, if_true, hl, if_false] at hx
  have := (List.mem_filter.mp hx).2
  simpa using this

theorem mem_unwatchedOf {recent : List JSVal} {fe : List NormalizedEpisode} :
    ∀ x ∈ unwatchedOf recent fe, x ∈ fe ∧ x.id ∉ recent := by
  intro x hx
  unfold unwatchedOf at hx
  have := List.mem_filter.mp hx
  refine ⟨this.1, ?_⟩
  have h2 := this.2
  simp at h2
  exact h2

theorem unwatchedOf_eq_nil {recent : List JSVal} {fe : List NormalizedEpisode}
    (h : ∀ x ∈ fe, x.id ∈ recent) : unwatchedOf recent fe = [] := by
  unfold unwatchedOf
  rw [List.filter_eq_nil_iff]
  intro a ha
  simp [h a ha]

theorem unwatchedOf_ne_nil {recent : List JSVal} {fe : List NormalizedEpisode}
    (h : ∃ x ∈ fe, x.id ∉ recent) : unwatchedOf recent fe ≠ [] := by
  obtain ⟨x, hmem, hid⟩ := h
  have : x ∈ unwatchedOf recent fe := by
    unfold unwatchedOf
    rw [List.mem_filter]
    exact ⟨hmem, by simp [hid]⟩
  intro hc
  rw [hc] at this
  exact absurd this (List.not_mem_nil x)

theorem pickEpisodeFromShow_none_cases (es : List JSNum) (recent : List JSVal) (k : ℕ) :
    pickEpisodeFromShow none es recent k = none ∧
    (∀ m : MetaResp, m.meta = none → pickEpisodeFromShow (some m) es recent k = none) ∧
    (∀ (m : MetaResp) (mi : MetaInner), m.meta = some mi → mi.videos = none →
      pickEpisodeFromShow (some m) es recent k = none) ∧
    (∀ (m : MetaResp) (mi : MetaInner), m.meta = some mi → mi.videos = some [] →
      pickEpisodeFromShow (some m) es recent k = none) := by
  refine ⟨rfl, ?_, ?_, ?_⟩
  · intro m hm
    simp [pickEpisodeFromShow, hm]
  · intro m mi hm hv
    simp [pickEpisodeFromShow, hm, hv]
  · intro m mi hm hv
    simp [pickEpisodeFromShow, hm, hv]

theorem pickEpisodeFromShow_char (m : MetaResp) (mi : MetaInner)
    (videos : List (Option Video)) (es : List JSNum) (recent : List JSVal) (k : ℕ)
    (hm : m.meta = some mi) (hv : mi.videos = some videos) (hne : videos ≠ []) :
    ∃ picked,
      picked ∈ (if (unwatchedOf recent (applySeasonFilter es
            (streamableSet (videos.map (normalizeEpisode m))))).length > 0
          then unwatchedOf recent (applySeasonFilter es
            (streamableSet (videos.map (normalizeEpisode m))))
          else applySeasonFilter es (streamableSet (videos.map (normalizeEpisode m)))) ∧
      pickEpisodeFromShow (some m) es recent k = some
        { seriesMeta := m, episodeId := picked.id, season := picked.season,
          episode := picked.episode, video := picked.video,
          wasUnwatched := (unwatchedOf recent (applySeasonFilter es
              (streamableSet (videos.map (normalizeEpisode m))))).length > 0 &&
            decide (picked ∈ unwatchedOf recent (applySeasonFilter es
              (streamableSet (videos.map (normalizeEpisode m))))) } := by
  have hmapne : videos.map (normalizeEpisode m) ≠ [] := by
    simpa using hne
  have hfe : applySeasonFilter es (streamableSet (videos.map (normalizeEpisode m))) ≠ [] :=
    applySeasonFilter_ne_nil _ (streamableSet_ne_nil hmapne)
  set fe := applySeasonFilter es (streamableSet (videos.map (normalizeEpisode m))) with hfedef
  set uw := unwatchedOf recent fe with huwdef
  set pool := if uw.length > 0 then uw else fe with hpooldef
  have hpoolne : pool ≠ [] := by
    rw [hpooldef]
    by_cases hl : uw.length > 0
    · rw [if_pos hl]
      intro hc
      rw [hc] at hl
      simp at hl
    · rw [if_neg hl]
      exact hfe
  have hlt : k % pool.length < pool.length :=
    Nat.mod_lt _ (List.length_pos.mpr hpoolne)
  have hget : pool[k % pool.length]? = some pool[k % pool.length] :=
    List.getElem?_eq_getElem hlt
  refine ⟨pool[k % pool.length], List.getElem_mem hlt, ?_⟩
  have hlen : ¬ videos.length = 0 := by
    intro hc
    exact hne (List.length_eq_zero.mp hc)
  simp only [pickEpisodeFromShow, hm, hv, if_neg hlen, ← hfedef, ← huwdef, ← hpooldef, hget]

/-- Claim C2 (confirmed): with metadata present and a non-empty episode
list, the per-show pick always returns a record — even when every id of the
post-filter working set is in recent history, in which case wasUnwatched is
false; and whenever some working-set episode is not in recent history, the
pick is drawn from the unwatched partition and wasUnwatched is true. -/
theorem claim2_watch_saturation (m : MetaResp) (mi : MetaInner)
    (videos : List (Option Video)) (es : List JSNum) (recent : List JSVal) (k : ℕ)
    (hm : m.meta = some mi) (hv : mi.videos = some videos) (hne : videos ≠ []) :
    ∃ r, pickEpisodeFromShow (some m) es recent k = some r ∧
      ((∀ x ∈ applySeasonFilter es (streamableSet (videos.map (normalizeEpisode m))),
          x.id ∈ recent) → r.wasUnwatched = false) ∧
      ((∃ x ∈ applySeasonFilter es (streamableSet (videos.map (normalizeEpisode m))),
          x.id ∉ recent) → (r.wasUnwatched = true ∧ r.episodeId ∉ recent)) := by
  obtain ⟨picked, hmem, heq⟩ :=
    pickEpisodeFromShow_char m mi videos es recent k hm hv hne
  refine ⟨_, heq, ?_, ?_⟩
  · intro hall
    have huw : unwatchedOf recent
        (applySeasonFilter es (streamableSet (videos.map (normalizeEpisode m)))) = [] :=
      unwatchedOf_eq_nil hall
    simp [huw]
  · intro hex
    have huw := unwatchedOf_ne_nil hex
    have hlp : (unwatchedOf recent
        (applySeasonFilter es (streamableSet (videos.map (normalizeEpisode m))))).length > 0 :=
      List.length_pos.mpr huw
    rw [if_pos hlp] at hmem
    have hid := (mem_unwatchedOf _ hmem).2
    constructor
    · simp [hlp, hmem]
    · exact hid

/-- Witness for claim C2: a one-episode show fully covered by history still
yields a pick with wasUnwatched false; with empty history the same show
yields a pick from the unwatched partition with wasUnwatched true. -/
theorem claim2_witness :
    (∃ r, pickEpisodeFromShow
        (some ⟨some ⟨some "tt5", JSVal.undef, some [some ⟨JSVal.num (JSNum.fin 2),
          JSVal.num (JSNum.fin 1), JSVal.undef, JSVal.str "tt5:2:1", JSVal.undef,
          JSVal.undef⟩]⟩⟩) [] [JSVal.str "tt5:2:1"] 0 = some r ∧
      r.wasUnwatched = false) ∧
    (∃ r, pickEpisodeFromShow
        (some ⟨some ⟨some "tt5", JSVal.undef, some [some ⟨JSVal.num (JSNum.fin 2),
          JSVal.num (JSNum.fin 1), JSVal.undef, JSVal.str "tt5:2:1", JSVal.undef,
          JSVal.undef⟩]⟩⟩) [] [] 0 = some r ∧
      r.wasUnwatched = true) := by
  constructor
  · obtain ⟨r, hr, hfull, _⟩ := claim2_watch_saturation
      ⟨some ⟨some "tt5", JSVal.undef, some [some ⟨JSVal.num (JSNum.fin 2),
        JSVal.num (JSNum.fin 1), JSVal.undef, JSVal.str "tt5:2:1", JSVal.undef,
        JSVal.undef⟩]⟩⟩
      ⟨some "tt5", JSVal.undef, some [some ⟨JSVal.num (JSNum.fin 2),
        JSVal.num (JSNum.fin 1), JSVal.undef, JSVal.str "tt5:2:1", JSVal.undef,
        JSVal.undef⟩]⟩
      [some ⟨JSVal.num (JSNum.fin 2), JSVal.num (JSNum.fin 1), JSVal.undef,
        JSVal.str "tt5:2:1", JSVal.undef, JSVal.undef⟩]
      [] [JSVal.str "tt5:2:1"] 0 rfl rfl (by decide)
    exact ⟨r, hr, hfull (by decide)⟩
  · obtain ⟨r, hr, _, hunw⟩ := claim2_watch_saturation
      ⟨some ⟨some "tt5", JSVal.undef, some [some ⟨JSVal.num (JSNum.fin 2),
        JSVal.num (JSNum.fin 1), JSVal.undef, JSVal.str "tt5:2:1", JSVal.undef,
        JSVal.undef⟩]⟩⟩
      ⟨some "tt5", JSVal.undef, some [some ⟨JSVal.num (JSNum.fin 2),
        JSVal.num (JSNum.fin 1), JSVal.undef, JSVal.str "tt5:2:1", JSVal.undef,
        JSVal.undef⟩]⟩
      [some ⟨JSVal.num (JSNum.fin 2), JSVal.num (JSNum.fin 1), JSVal.undef,
        JSVal.str "tt5:2:1", JSVal.undef, JSVal.undef⟩]
      [] [] 0 rfl rfl (by decide)
    exact ⟨r, hr, (hunw (by decide)).1⟩

/-- Claim C3 (confirmed): the selection returns null for an empty show pool
and for a target show id matching nothing in the pool, whatever the
collaborators (metadata, settings, history, shuffle and random draw) do —
so the null result is deterministic and raises no error. -/
theorem claim3_empty_pool :
    (∀ (env : PickEnv) (t : Option String),
      pickSmartRandomEpisode (some []) t env = none) ∧
    (∀ (env : PickEnv) (shows : List UserShow) (t : String),
      (∀ s ∈ shows, s.id ≠ t) →
      pickSmartRandomEpisode (some shows) (some t) env = none) := by
  constructor
  · intro env t
    rfl
  · intro env shows t hnone
    have hfilter : shows.filter (fun s => decide (s.id = t)) = [] := by
      rw [List.filter_eq_nil_iff]
      intro a ha
      simp [hnone a ha]
    by_cases hsh : shows.length = 0
    · simp [pickSmartRandomEpisode, hsh]
    · simp [pickSmartRandomEpisode, hsh, hfilter]

/-- Witness for claim C3 at an empty pool and at a non-matching target. -/
theorem claim3_witness :
    pickSmartRandomEpisode (some []) none
      ⟨fun _ => none, fun _ => [], fun _ => [], fun _ => 0, fun l => l⟩ = none ∧
    pickSmartRandomEpisode (some [⟨"tt5"⟩]) (some "tt9")
      ⟨fun _ => none, fun _ => [], fun _ => [], fun _ => 0, fun l => l⟩ = none := by
  constructor
  · exact claim3_empty_pool.1 ⟨fun _ => none, fun _ => [], fun _ => [], fun _ => 0, fun l => l⟩ none
  · exact claim3_empty_pool.2 ⟨fun _ => none, fun _ => [], fun _ => [], fun _ => 0, fun l => l⟩
      [⟨"tt5"⟩] "tt9" (by decide)

/-- Claim C1 (confirmed): when the selection is restricted to a single show
whose season filter is the non-empty set containing exactly 2, every
returned episode has season 2, provided the filter restriction would not
empty the working set (some working-set episode has season 2); the
hypotheses require only that the shuffle returns elements of its input. -/
theorem claim1_season_filter (env : PickEnv) (shows : List UserShow) (t : String)
    (r : PickResult)
    (hshuffle : ∀ (l : List UserShow) (s : UserShow), s ∈ env.shuffle l → s ∈ l)
    (hseasons : env.enabledSeasons t = [JSNum.fin 2])
    (hws : ∀ (m : MetaResp) (mi : MetaInner) (videos : List (Option Video)),
      env.fetchMeta t = some m → m.meta = some mi → mi.videos = some videos →
      ∃ it ∈ streamableSet (videos.map (normalizeEpisode m)), it.season = JSNum.fin 2)
    (hp : pickSmartRandomEpisode (some shows) (some t) env = some r) :
    r.season = JSNum.fin 2 := by
  unfold pickSmartRandomEpisode at hp
  by_cases hsh : shows.length = 0
  · simp [hsh] at hp
  · simp only [if_neg hsh] at hp
    by_cases hfp : (shows.filter (fun s => decide (s.id = t))).length = 0
    · simp [hfp] at hp
    · simp only [if_neg hfp] at hp
      obtain ⟨sh, hshmem, hpick⟩ := List.exists_of_findSome?_eq_some hp
      have hshpool := hshuffle _ _ hshmem
      have hid : sh.id = t := by
        have := List.mem_filter.mp hshpool
        simpa using this.2
      rw [hid, hseasons] at hpick
      cases hft : env.fetchMeta t with
      | none =>
        rw [hft] at hpick
        exact absurd hpick (by simp [pickEpisodeFromShow])
      | some m =>
        rw [hft] at hpick
        cases hmm : m.meta with
        | none => simp [pickEpisodeFromShow, hmm] at hpick
        | some mi =>
          cases hvv : mi.videos with
          | none => simp [pickEpisodeFromShow, hmm, hvv] at hpick
          | some videos =>
            by_cases hlen : videos.length = 0
            · simp [pickEpisodeFromShow, hmm, hvv, hlen] at hpick
            · have hne : videos ≠ [] := fun hc => hlen (by rw [hc]; rfl)
              obtain ⟨picked, hmem, heq⟩ := pickEpisodeFromShow_char m mi videos
                [JSNum.fin 2] (env.recentIds t) (env.rand t) hmm hvv hne
              rw [heq] at hpick
              have hr := Option.some.inj hpick
              have hex := hws m mi videos hft hmm hvv
              have hfe_season := applySeasonFilter_singleton_season (JSNum.fin 2) hex
              have hpicked_fe : picked ∈ applySeasonFilter [JSNum.fin 2]
                  (streamableSet (videos.map (normalizeEpisode m))) := by
                by_cases hl : (unwatchedOf (env.recentIds t) (applySeasonFilter [JSNum.fin 2]
                    (streamableSet (videos.map (normalizeEpisode m))))).length > 0
                · rw [if_pos hl] at hmem
                  exact (mem_unwatchedOf _ hmem).1
                · rw [if_neg hl] at hmem
                  exact hmem
              have hps := hfe_season picked hpicked_fe
              rw [← hr]
              exact hps

/-- Witness for claim C1: a single show with one season-2 episode and the
season filter set to 2 yields a season-2 pick. -/
theorem claim1_witness :
    ∃ r, pickSmartRandomEpisode (some [⟨"tt5"⟩]) (some "tt5")
        ⟨fun _ => some ⟨some ⟨some "tt5", JSVal.undef, some [some ⟨JSVal.num (JSNum.fin 2),
            JSVal.num (JSNum.fin 1), JSVal.undef, JSVal.str "tt5:2:1", JSVal.undef,
            JSVal.undef⟩]⟩⟩,
          fun _ => [JSNum.fin 2], fun _ => [], fun _ => 0, fun l => l⟩ = some r ∧
      r.season = JSNum.fin 2 := by
  have hp : pickSmartRandomEpisode (some [⟨"tt5"⟩]) (some "tt5")
      ⟨fun _ => some ⟨some ⟨some "tt5", JSVal.undef, some [some ⟨JSVal.num (JSNum.fin 2),
          JSVal.num (JSNum.fin 1), JSVal.undef, JSVal.str "tt5:2:1", JSVal.undef,
          JSVal.undef⟩]⟩⟩,
        fun _ => [JSNum.fin 2], fun _ => [], fun _ => 0, fun l => l⟩ = some
      ⟨⟨some ⟨some "tt5", JSVal.undef, some [some ⟨JSVal.num (JSNum.fin 2),
          JSVal.num (JSNum.fin 1), JSVal.undef, JSVal.str "tt5:2:1", JSVal.undef,
          JSVal.undef⟩]⟩⟩, JSVal.str "tt5:2:1", JSNum.fin 2, JSNum.fin 1,
        some ⟨JSVal.num (JSNum.fin 2), JSVal.num (JSNum.fin 1), JSVal.undef,
          JSVal.str "tt5:2:1", JSVal.undef, JSVal.undef⟩, true⟩ := by
    decide
  refine ⟨_, hp, ?_⟩
  refine claim1_season_filter _ [⟨"tt5"⟩] "tt5" _ (fun l s h => h) rfl ?_ hp
  intro m mi videos h1 h2 h3
  cases h1
  cases h2
  cases h3
  decide
